import Mathlib

/-!
Verification of the ATtiny13 ISP programming engine (`src/esp.py`).

The engine drives a bit-banged SPI link: every hardware interaction is a
four-byte command whose response is produced by the target.  We embed the
engine shallowly:

* a `Cmd` is the four bytes sent on the wire;
* the target is an oracle `Env : Nat → Nat × Nat` giving the pair
  `(r3, r4)` of meaningful response bytes for the n-th command issued
  (the first two response bytes are protocol artifacts and are discarded
  by the source as well);
* the observable state `St` records the trace of commands issued and the
  trace of values driven onto the reset line (`reset.value(v)` calls);
* Python functions that can raise (`parse_hex_file`, and `program_flash`
  which calls it) return `Option`, `none` standing for an exception.

Python's `dict` is modelled as an insertion-ordered association list
(`List (Nat × Nat)`), since `verify_flash` iterates `.items()` in
insertion order.  `parse_hex_file` receives the list of lines produced by
`hex_content.strip().splitlines()`.
-/

namespace Esp

/-- Four command bytes as sent over the wire by `send_cmd`. -/
abbrev Cmd := Nat × Nat × Nat × Nat

/-- Target oracle: response pair `(r3, r4)` to the n-th command issued. -/
abbrev Env := Nat → Nat × Nat

/-- Observable hardware state: every command issued (in order) and every
value driven onto the reset line (in order). -/
structure St where
  cmds : List Cmd
  resets : List Nat
deriving DecidableEq

/-- Fresh state before any hardware interaction. -/
def initSt : St := ⟨[], []⟩

-- ATtiny13 parameters (src/esp.py lines 14-17)
def FLASH_SIZE : Nat := 1024
def ATTINY13_PAGE_SIZE : Nat := 32
def ATTINY13_WORDS_PER_PAGE : Nat := 16

-- Fuse configuration constants (src/esp.py lines 27, 38)
def ATTINY13_LOW_FUSE_9_6MHZ : Nat := 0x7A
def ATTINY13_HIGH_FUSE : Nat := 0xFF

/-- Embedding of `send_cmd` (src/esp.py lines 67-73): issues the four
bytes, records them in the trace, and returns the `(r3, r4)` pair the
target answers for this (the n-th) command. -/
def send_cmd (env : Env) (a b c d : Nat) (s : St) : (Nat × Nat) × St :=
  (env s.cmds.length, { s with cmds := s.cmds ++ [(a, b, c, d)] })

/-- Embedding of `send_cmd_r3` (line 75-76). -/
def send_cmd_r3 (env : Env) (a b c d : Nat) (s : St) : Nat × St :=
  let r := send_cmd env a b c d s
  (r.1.1, r.2)

/-- Embedding of `send_cmd_r4` (line 78-79). -/
def send_cmd_r4 (env : Env) (a b c d : Nat) (s : St) : Nat × St :=
  let r := send_cmd env a b c d s
  (r.1.2, r.2)

/-- Record a value driven onto the reset line (`reset.value(v)`). -/
def setReset (v : Nat) (s : St) : St := { s with resets := s.resets ++ [v] }

/-- Embedding of `start_programming` (lines 91-100): assert reset, issue
the programming-enable command `AC 53 00 00`, succeed iff the echoed
third response byte is `0x53`. -/
def start_programming (env : Env) (s : St) : Bool × St :=
  let s1 := setReset 0 s
  let r := send_cmd_r3 env 0xAC 0x53 0x00 0x00 s1
  (r.1 == 0x53, r.2)

/-- Embedding of `end_programming` (lines 102-104): deassert reset. -/
def end_programming (s : St) : St := setReset 1 s

/-- Embedding of `read_low_fuse` (lines 110-112). -/
def read_low_fuse (env : Env) (s : St) : Nat × St :=
  send_cmd_r4 env 0x50 0x00 0x00 0x00 s

/-- Embedding of `read_high_fuse` (lines 114-116). -/
def read_high_fuse (env : Env) (s : St) : Nat × St :=
  send_cmd_r4 env 0x58 0x08 0x00 0x00 s

/-- Embedding of `read_lock_bits` (lines 118-120). -/
def read_lock_bits (env : Env) (s : St) : Nat × St :=
  send_cmd_r4 env 0x58 0x00 0x00 0x00 s

/-- Embedding of `write_low_fuse` (lines 122-126); the response is
discarded by the source. -/
def write_low_fuse (env : Env) (fuse_value : Nat) (s : St) : St :=
  (send_cmd_r4 env 0xAC 0xA0 0x00 fuse_value s).2

/-- Embedding of `write_high_fuse` (lines 128-132). -/
def write_high_fuse (env : Env) (fuse_value : Nat) (s : St) : St :=
  (send_cmd_r4 env 0xAC 0xA8 0x00 fuse_value s).2

/-- The command issued by `read_low_fuse`. -/
def readLowCmd : Cmd := (0x50, 0x00, 0x00, 0x00)

/-- The command issued by `read_high_fuse`. -/
def readHighCmd : Cmd := (0x58, 0x08, 0x00, 0x00)

/-- The command issued by `write_low_fuse fuse_value`. -/
def writeLowCmd (fuse_value : Nat) : Cmd := (0xAC, 0xA0, 0x00, fuse_value)

/-- Embedding of `program_fuses_for_9_6mhz` (lines 134-190), with the two
module-level configuration constants `ATTINY13_LOW_FUSE_9_6MHZ` and
`ATTINY13_HIGH_FUSE` it reads made explicit parameters `tLow`, `tHigh`
(the spec lists them among the per-target configuration constants).
Order of events follows the source exactly: read low fuse, read high
fuse, configured-high-fuse safety check, CKSEL check, conditional
low-fuse write with read-back verification, then the current-high-fuse
danger checks. -/
def program_fuses (tLow tHigh : Nat) (env : Env) (s : St) : Bool × St :=
  let rl := read_low_fuse env s
  let low_fuse := rl.1
  let rh := read_high_fuse env rl.2
  let high_fuse := rh.1
  let s2 := rh.2
  -- line 146: if ATTINY13_HIGH_FUSE != 0xFF: return False
  if tHigh ≠ 0xFF then (false, s2)
  -- lines 152-156: CKSEL nibble of the configured low fuse must be 0x0A
  else if tLow &&& 0x0F ≠ 0x0A then (false, s2)
  else
    -- lines 159-171: write the low fuse if it differs, verify read-back
    let step :=
      if low_fuse ≠ tLow then
        let s3 := write_low_fuse env tLow s2
        let rv := read_low_fuse env s3
        if rv.1 = tLow then (true, rv.2) else (false, rv.2)
      else (true, s2)
    if step.1 = false then step
    else
      let s4 := step.2
      -- lines 174-187: never write the high fuse; abort on danger values
      if high_fuse ≠ tHigh then
        if high_fuse = 0xFE then (false, s4)
        else if high_fuse &&& 0x02 = 0 then (false, s4)
        else (true, s4)
      else (true, s4)

/-- `program_fuses_for_9_6mhz` as the source runs it, at the source's
configuration constants. -/
def program_fuses_for_9_6mhz (env : Env) (s : St) : Bool × St :=
  program_fuses ATTINY13_LOW_FUSE_9_6MHZ ATTINY13_HIGH_FUSE env s

/-- Recognizes the high-fuse write opcode `AC A8`, the command
`write_high_fuse` issues. -/
def isHighFuseWriteCmd (c : Cmd) : Bool := c.1 == 0xAC && c.2.1 == 0xA8

/-- Recognizes either fuse write opcode, `AC A0` (low) or `AC A8`
(high). -/
def isFuseWriteCmd (c : Cmd) : Bool :=
  c.1 == 0xAC && (c.2.1 == 0xA0 || c.2.1 == 0xA8)

/-- Embedding of `display_fuse_settings` (lines 192-250): issues the
three read commands; all other work is console output. -/
def display_fuse_settings (env : Env) (s : St) : St :=
  let r1 := read_low_fuse env s
  let r2 := read_high_fuse env r1.2
  let r3 := read_lock_bits env r2.2
  r3.2

/-- Embedding of `chip_erase` (lines 256-260). -/
def chip_erase (env : Env) (s : St) : St :=
  (send_cmd_r4 env 0xAC 0x80 0x00 0x00 s).2

/-- Embedding of `read_signature_bytes` (lines 262-267): the loop over
addresses `[0x00, 0x01, 0x02]` unrolled. -/
def read_signature_bytes (env : Env) (s : St) : List Nat × St :=
  let r0 := send_cmd_r4 env 0x30 0x00 0x00 0x00 s
  let r1 := send_cmd_r4 env 0x30 0x00 0x01 0x00 r0.2
  let r2 := send_cmd_r4 env 0x30 0x00 0x02 0x00 r1.2
  ([r0.1, r1.1, r2.1], r2.2)

/-- Value of a single hexadecimal digit character, by character code, as
accepted by Python's `int(s, 16)` for the fields of a hex record
(`0`-`9`, `a`-`f`, `A`-`F`); `none` models `ValueError`. -/
def hexDigitVal (n : Nat) : Option Nat :=
  if 48 ≤ n ∧ n ≤ 57 then some (n - 48)
  else if 97 ≤ n ∧ n ≤ 102 then some (n - 97 + 10)
  else if 65 ≤ n ∧ n ≤ 70 then some (n - 65 + 10)
  else none

/-- Accumulating core of base-16 parsing. -/
def pyIntHexCore : List Char → Nat → Option Nat
  | [], acc => some acc
  | c :: cs, acc =>
    match hexDigitVal c.toNat with
    | none => none
    | some d => pyIntHexCore cs (acc * 16 + d)

/-- Embedding of Python's `int(s, 16)` on the digit strings the decoder
slices out of a record line: the empty string raises, otherwise each
character must be a hex digit.  (Python additionally tolerates
surrounding whitespace, an optional sign, and underscores; no record
field in scope uses those.) -/
def pyIntHex (cs : List Char) : Option Nat :=
  match cs with
  | [] => none
  | _ => pyIntHexCore cs 0

/-- Python slice `s[a:b]` for `0 ≤ a ≤ b`: never raises, silently
truncates at the end of the string. -/
def pySlice (cs : List Char) (a b : Nat) : List Char :=
  (cs.drop a).take (b - a)

/-- Python `dict` assignment `d[k] = v` on an insertion-ordered
association list: replace in place if the key exists, else append. -/
def dictInsert : List (Nat × Nat) → Nat → Nat → List (Nat × Nat)
  | [], k, v => [(k, v)]
  | p :: d, k, v => if p.1 = k then (k, v) :: d else p :: dictInsert d k v

/-- Python `dict` lookup `d[k]` / `k in d`. -/
def dictLookup (d : List (Nat × Nat)) (k : Nat) : Option Nat :=
  (d.find? (fun p => p.1 == k)).map (fun p => p.2)

/-- The payload-insertion loop of a data record (src/esp.py lines
311-312): `for i in range(byte_count): data[addr + i] = int(line[9 + i*2
: 11 + i*2], 16)`.  `i` is the current index, the second argument the
number of iterations left; `none` models a raised `ValueError`. -/
def insertBytes (cs : List Char) (addr : Nat) :
    Nat → Nat → List (Nat × Nat) → Option (List (Nat × Nat))
  | _, 0, d => some d
  | i, n + 1, d =>
    match pyIntHex (pySlice cs (9 + i * 2) (11 + i * 2)) with
    | none => none
    | some v => insertBytes cs addr (i + 1) n (dictInsert d (addr + i) v)

/-- The three leading fields of a record line (src/esp.py lines 307-309):
byte count `line[1:3]`, address `line[3:7]`, record type `line[7:9]`,
each parsed base-16; the first failure raises (`none`). -/
def recordFields (cs : List Char) : Option (Nat × Nat × Nat) :=
  match pyIntHex (pySlice cs 1 3) with
  | none => none
  | some byte_count =>
    match pyIntHex (pySlice cs 3 7) with
    | none => none
    | some addr =>
      match pyIntHex (pySlice cs 7 9) with
      | none => none
      | some record_type => some (byte_count, addr, record_type)

/-- The line loop of `parse_hex_file` (src/esp.py lines 304-315) with its
accumulated dictionary: skip lines not starting with `:`, insert the
payload of type-0 records, stop at the first type-1 record, ignore other
record types. -/
def parse_hex_file_go : List String → List (Nat × Nat) → Option (List (Nat × Nat))
  | [], data => some data
  | line :: rest, data =>
    if line.data.head? = some ':' then
      match recordFields line.data with
      | none => none
      | some (byte_count, addr, record_type) =>
        if record_type = 0 then
          match insertBytes line.data addr 0 byte_count data with
          | none => none
          | some d2 => parse_hex_file_go rest d2
        else if record_type = 1 then some data
        else parse_hex_file_go rest data
    else parse_hex_file_go rest data

/-- Embedding of `parse_hex_file` (src/esp.py lines 302-315), taking the
list of lines `hex_content.strip().splitlines()` yields. -/
def parse_hex_file (lines : List String) : Option (List (Nat × Nat)) :=
  parse_hex_file_go lines []

/-- The payload bytes of a data record, as parsed by the insertion loop:
byte `i` is `int(line[9 + i*2 : 11 + i*2], 16)`. -/
def payloadBytes (cs : List Char) : Nat → Nat → Option (List Nat)
  | _, 0 => some []
  | i, n + 1 =>
    match pyIntHex (pySlice cs (9 + i * 2) (11 + i * 2)) with
    | none => none
    | some v =>
      match payloadBytes cs (i + 1) n with
      | none => none
      | some vs => some (v :: vs)

/-- Insert a list of bytes at consecutive addresses starting at `a`. -/
def insertConsec (d : List (Nat × Nat)) (a : Nat) : List Nat → List (Nat × Nat)
  | [] => d
  | v :: vs => insertConsec (dictInsert d a v) (a + 1) vs

/-- Decides that an input contains no data record before its first
end-of-file record: every line up to the first type-1 record either does
not start with `:` (skipped) or parses as a record of type other than 0. -/
def noDataBeforeEOF : List String → Bool
  | [] => true
  | line :: rest =>
    if line.data.head? = some ':' then
      match recordFields line.data with
      | none => false
      | some (_, _, record_type) =>
        if record_type = 0 then false
        else if record_type = 1 then true
        else noDataBeforeEOF rest
    else noDataBeforeEOF rest

/-- Embedding of `read_flash_byte` (src/esp.py lines 317-321). -/
def read_flash_byte (env : Env) (addr : Nat) (s : St) : Nat × St :=
  let word_addr := addr >>> 1
  let high_low := addr &&& 0x01
  let cmd := if high_low ≠ 0 then 0x28 else 0x20
  send_cmd_r4 env cmd ((word_addr >>> 8) &&& 0xFF) (word_addr &&& 0xFF) 0x00 s

/-- The command `read_flash_byte addr` issues. -/
def flashReadCmd (addr : Nat) : Cmd :=
  ((if addr &&& 0x01 ≠ 0 then 0x28 else 0x20),
   ((addr >>> 1) >>> 8) &&& 0xFF, (addr >>> 1) &&& 0xFF, 0x00)

/-- The flash-read commands for a list of image entries, in order. -/
def flashReadCmds (items : List (Nat × Nat)) : List Cmd :=
  items.map (fun p => flashReadCmd p.1)

/-- The read-and-compare loop of `verify_flash` (src/esp.py lines
326-333), with the running error count: one read-back per entry, stop
once the error count reaches 20, final result `errors == 0`. -/
def verifyGo (env : Env) : List (Nat × Nat) → Nat → St → Bool × St
  | [], errors, s => (errors == 0, s)
  | p :: rest, errors, s =>
    let r := read_flash_byte env p.1 s
    if r.1 ≠ p.2 then
      if errors + 1 ≥ 20 then (errors + 1 == 0, r.2)
      else verifyGo env rest (errors + 1) r.2
    else verifyGo env rest errors r.2

/-- Embedding of `verify_flash` (src/esp.py lines 323-339); iterates the
parsed dictionary in insertion order, as `parsed_data.items()` does. -/
def verify_flash (env : Env) (parsed_data : List (Nat × Nat)) (s : St) : Bool × St :=
  verifyGo env parsed_data 0 s

/-- Number of mismatches the full scan would see: entry `i` of the image
is compared against the `r4` byte the target answers for the `(n+i)`-th
command, `n` being the command count when the scan starts (the scan
issues exactly one read per entry scanned). -/
def mismatches (env : Env) : Nat → List (Nat × Nat) → Nat
  | _, [] => 0
  | n, p :: rest => (if (env n).2 ≠ p.2 then 1 else 0) + mismatches env (n + 1) rest

/-- Number of image entries `verify_flash` actually scans before
returning, starting at command index `n` with `errors` accumulated
mismatches: all of them, unless the error count reaches 20 first. -/
def scanCount (env : Env) : Nat → Nat → List (Nat × Nat) → Nat
  | _, _, [] => 0
  | n, errors, p :: rest =>
    if (env n).2 ≠ p.2 then
      if errors + 1 ≥ 20 then 1
      else 1 + scanCount env (n + 1) (errors + 1) rest
    else 1 + scanCount env (n + 1) errors rest

/-- Loading one word of the page buffer (src/esp.py lines 273-290): low
and high byte taken from `data_bytes` when in range, `0xFF` otherwise,
then the two load commands. -/
def loadPageWord (env : Env) (data_bytes : List Nat) (st : St) (word_index : Nat) : St :=
  let byte_index := word_index * 2
  let low_byte := (data_bytes.get? byte_index).getD 0xFF
  let high_byte := (data_bytes.get? (byte_index + 1)).getD 0xFF
  let st1 := (send_cmd_r4 env 0x40 0x00 word_index low_byte st).2
  (send_cmd_r4 env 0x48 0x00 word_index high_byte st1).2

/-- Embedding of `program_flash_page` (src/esp.py lines 269-300): load
all 16 words of the page buffer, then commit the page at its word
address. -/
def program_flash_page (env : Env) (page_address : Nat) (data_bytes : List Nat) (s : St) : St :=
  let s1 := (List.range ATTINY13_WORDS_PER_PAGE).foldl (loadPageWord env data_bytes) s
  let page_word_addr := page_address / 2
  let high_addr := (page_word_addr >>> 8) &&& 0xFF
  let low_addr := page_word_addr &&& 0xFF
  (send_cmd_r4 env 0x4C high_addr low_addr 0x00 s1).2

/-- The two load commands for word `word_index` of a page. -/
def loadWordCmds (word_index low_byte high_byte : Nat) : List Cmd :=
  [(0x40, 0x00, word_index, low_byte), (0x48, 0x00, word_index, high_byte)]

/-- The page-commit command for the page starting at `page_address`. -/
def pageCommitCmd (page_address : Nat) : Cmd :=
  let page_word_addr := page_address / 2
  (0x4C, (page_word_addr >>> 8) &&& 0xFF, page_word_addr &&& 0xFF, 0x00)

/-- All commands `program_flash_page page_address data_bytes` issues. -/
def pageProgCmds (page_address : Nat) (data_bytes : List Nat) : List Cmd :=
  (List.flatten ((List.range ATTINY13_WORDS_PER_PAGE).map (fun wi =>
    loadWordCmds wi ((data_bytes.get? (wi * 2)).getD 0xFF)
      ((data_bytes.get? (wi * 2 + 1)).getD 0xFF))))
  ++ [pageCommitCmd page_address]

/-- Whether the page starting at `page_start` has any byte in the parsed
image: the disjunction of `byte_addr in parsed_data` over the page
(src/esp.py lines 383-387). -/
def pageHasData (parsed_data : List (Nat × Nat)) (page_start : Nat) : Bool :=
  (List.range ATTINY13_PAGE_SIZE).any
    (fun i => (dictLookup parsed_data (page_start + i)).isSome)

/-- The `page_data` list built for the page starting at `page_start`:
the image byte when present, `0xFF` otherwise (src/esp.py lines
383-389). -/
def buildPage (parsed_data : List (Nat × Nat)) (page_start : Nat) : List Nat :=
  (List.range ATTINY13_PAGE_SIZE).map
    (fun i => (dictLookup parsed_data (page_start + i)).getD 0xFF)

/-- The page starts `range(0, FLASH_SIZE, ATTINY13_PAGE_SIZE)` iterated
by the programming loop (src/esp.py line 379). -/
def pageStarts : List Nat :=
  List.range' 0 (FLASH_SIZE / ATTINY13_PAGE_SIZE) ATTINY13_PAGE_SIZE

/-- The page-programming loop of `program_flash` (src/esp.py lines
379-394): for each page start, build the page data and program the page
only when it has data. -/
def flashPages (env : Env) (parsed_data : List (Nat × Nat)) (s : St) : St :=
  pageStarts.foldl (fun st page_start =>
    if pageHasData parsed_data page_start then
      program_flash_page env page_start (buildPage parsed_data page_start) st
    else st) s

/-- Embedding of `program_flash` (src/esp.py lines 341-399), the session
orchestrator: decode, fail if empty, enter programming mode, check the
signature, display and program fuses, erase, program pages, verify.
`none` models an exception escaping (only the decoder raises). -/
def program_flash (env : Env) (lines : List String) (s : St) : Option (Bool × St) :=
  match parse_hex_file lines with
  | none => none
  | some parsed_data =>
    if parsed_data.isEmpty then some (false, s)
    else
      let st := start_programming env s
      if st.1 = false then
        -- line 351: early return with no end_programming call
        some (false, st.2)
      else
        let sg := read_signature_bytes env st.2
        if sg.1 ≠ [30, 144, 7] then some (false, end_programming sg.2)
        else
          let s1 := display_fuse_settings env sg.2
          let fu := program_fuses_for_9_6mhz env s1
          if fu.1 = false then some (false, end_programming fu.2)
          else
            let s2 := display_fuse_settings env fu.2
            let s3 := chip_erase env s2
            let s4 := flashPages env parsed_data s3
            let vr := verify_flash env parsed_data s4
            some (vr.1, end_programming vr.2)

/-! ### Dictionary and parser lemmas -/

theorem dictLookup_cons (p : Nat × Nat) (d : List (Nat × Nat)) (k2 : Nat) :
    dictLookup (p :: d) k2 = if p.1 = k2 then some p.2 else dictLookup d k2 := by
  simp only [dictLookup, List.find?]
  by_cases h : p.1 = k2
  · simp [h]
  · have hb : (p.1 == k2) = false := by simpa using h
    simp [hb, h]

theorem dictLookup_insert (d : List (Nat × Nat)) (k v k2 : Nat) :
    dictLookup (dictInsert d k v) k2 = if k2 = k then some v else dictLookup d k2 := by
  induction d with
  | nil =>
    show dictLookup [(k, v)] k2 = _
    rw [dictLookup_cons]
    by_cases h : k2 = k
    · rw [if_pos (by omega), if_pos h]
    · rw [if_neg (by omega), if_neg h]
  | cons p d ih =>
    simp only [dictInsert]
    by_cases hp : p.1 = k
    · rw [if_pos hp, dictLookup_cons, dictLookup_cons]
      by_cases h : k2 = k
      · have h1 : k = k2 := by omega
        rw [if_pos h1, if_pos h]
      · have h1 : ¬(k = k2) := by omega
        have h3 : ¬(p.1 = k2) := by omega
        rw [if_neg h1, if_neg h, if_neg h3]
    · rw [if_neg hp, dictLookup_cons, dictLookup_cons]
      by_cases hq : p.1 = k2
      · have hne : ¬(k2 = k) := by omega
        rw [if_pos hq, if_neg hne, if_pos hq]
      · rw [if_neg hq, ih]
        by_cases h : k2 = k
        · rw [if_pos h, if_pos h]
        · rw [if_neg h, if_neg h, if_neg hq]

theorem dictLookup_insertConsec_lt (bs : List Nat) :
    ∀ (d : List (Nat × Nat)) (a k : Nat), k < a →
      dictLookup (insertConsec d a bs) k = dictLookup d k := by
  induction bs with
  | nil => intro d a k _; rfl
  | cons v vs ih =>
    intro d a k hk
    show dictLookup (insertConsec (dictInsert d a v) (a + 1) vs) k = _
    rw [ih _ _ _ (by omega), dictLookup_insert]
    simp [Nat.ne_of_lt hk]

theorem dictLookup_insertConsec_get (bs : List Nat) :
    ∀ (d : List (Nat × Nat)) (a j : Nat) (h : j < bs.length),
      dictLookup (insertConsec d a bs) (a + j) = some (bs.get ⟨j, h⟩) := by
  induction bs with
  | nil => intro d a j h; exact absurd h (by simp)
  | cons v vs ih =>
    intro d a j h
    cases j with
    | zero =>
      show dictLookup (insertConsec (dictInsert d a v) (a + 1) vs) (a + 0) = _
      rw [dictLookup_insertConsec_lt vs _ _ _ (by omega), dictLookup_insert]
      simp
    | succ j =>
      show dictLookup (insertConsec (dictInsert d a v) (a + 1) vs) (a + (j + 1)) = _
      have ha : a + (j + 1) = (a + 1) + j := by omega
      rw [ha, ih _ _ _ (by simpa using Nat.lt_of_succ_lt_succ h)]
      rfl

theorem insertBytes_eq_payload (cs : List Char) (addr : Nat) :
    ∀ (n i : Nat) (d : List (Nat × Nat)),
      insertBytes cs addr i n d =
        (payloadBytes cs i n).map (fun bs => insertConsec d (addr + i) bs) := by
  intro n
  induction n with
  | zero => intro i d; rfl
  | succ n ih =>
    intro i d
    show (match pyIntHex (pySlice cs (9 + i * 2) (11 + i * 2)) with
      | none => none
      | some v => insertBytes cs addr (i + 1) n (dictInsert d (addr + i) v)) = _
    cases hv : pyIntHex (pySlice cs (9 + i * 2) (11 + i * 2)) with
    | none => simp [payloadBytes, hv]
    | some v =>
      show insertBytes cs addr (i + 1) n (dictInsert d (addr + i) v) = _
      rw [ih]
      simp only [payloadBytes, hv]
      cases hp : payloadBytes cs (i + 1) n with
      | none => simp
      | some vs =>
        simp only [Option.map, insertConsec]
        have ha : addr + (i + 1) = addr + i + 1 := by omega
        rw [ha]

theorem payloadBytes_length (cs : List Char) :
    ∀ (n i : Nat) (bs : List Nat), payloadBytes cs i n = some bs → bs.length = n := by
  intro n
  induction n with
  | zero => intro i bs h; simp [payloadBytes] at h; simp [← h]
  | succ n ih =>
    intro i bs h
    simp only [payloadBytes] at h
    cases hv : pyIntHex (pySlice cs (9 + i * 2) (11 + i * 2)) with
    | none => rw [hv] at h; exact absurd h (by simp)
    | some v =>
      rw [hv] at h
      cases hp : payloadBytes cs (i + 1) n with
      | none => rw [hp] at h; exact absurd h (by simp)
      | some vs =>
        rw [hp] at h
        cases h
        simpa using ih (i + 1) vs hp

theorem hexDigitVal_lt (m d : Nat) (h : hexDigitVal m = some d) : d < 16 := by
  simp only [hexDigitVal] at h
  split at h
  · cases h; omega
  · split at h
    · cases h; omega
    · split at h
      · cases h; omega
      · exact absurd h (by simp)

theorem pyIntHexCore_lt (cs : List Char) :
    ∀ (acc n : Nat), pyIntHexCore cs acc = some n → n < (acc + 1) * 16 ^ cs.length := by
  induction cs with
  | nil =>
    intro acc n h
    simp only [pyIntHexCore] at h
    cases h
    simp
  | cons c cs ih =>
    intro acc n h
    simp only [pyIntHexCore] at h
    cases hd : hexDigitVal c.toNat with
    | none => rw [hd] at h; exact absurd h (by simp)
    | some d =>
      rw [hd] at h
      have hlt := ih (acc * 16 + d) n h
      have hd16 : d < 16 := hexDigitVal_lt _ _ hd
      calc n < (acc * 16 + d + 1) * 16 ^ cs.length := hlt
        _ ≤ ((acc + 1) * 16) * 16 ^ cs.length := by
              have : acc * 16 + d + 1 ≤ (acc + 1) * 16 := by omega
              exact Nat.mul_le_mul_right _ this
        _ = (acc + 1) * 16 ^ (c :: cs).length := by
              simp [List.length_cons, Nat.pow_succ]
              ring

theorem pyIntHex_lt (cs : List Char) (n : Nat) (h : pyIntHex cs = some n) :
    n < 16 ^ cs.length := by
  simp only [pyIntHex] at h
  cases cs with
  | nil => exact absurd h (by simp)
  | cons c cs => simpa using pyIntHexCore_lt _ _ _ h

theorem recordFields_addr_lt (cs : List Char) (bc addr rt : Nat)
    (h : recordFields cs = some (bc, addr, rt)) : addr < 65536 := by
  simp only [recordFields] at h
  cases h1 : pyIntHex (pySlice cs 1 3) with
  | none => rw [h1] at h; exact absurd h (by simp)
  | some b =>
    rw [h1] at h
    cases h2 : pyIntHex (pySlice cs 3 7) with
    | none => rw [h2] at h; exact absurd h (by simp)
    | some a =>
      rw [h2] at h
      cases h3 : pyIntHex (pySlice cs 7 9) with
      | none => rw [h3] at h; exact absurd h (by simp)
      | some r =>
        rw [h3] at h
        cases h
        have hlen : (pySlice cs 3 7).length ≤ 4 := by
          simp only [pySlice]
          have := List.length_take_le (7 - 3) (cs.drop 3)
          omega
        have := pyIntHex_lt _ _ h2
        calc addr < 16 ^ (pySlice cs 3 7).length := this
          _ ≤ 16 ^ 4 := Nat.pow_le_pow_right (by omega) hlen
          _ = 65536 := by norm_num

theorem noData_parse_go (lines : List String) :
    ∀ (d : List (Nat × Nat)), noDataBeforeEOF lines = true →
      parse_hex_file_go lines d = some d := by
  induction lines with
  | nil => intro d _; rfl
  | cons line rest ih =>
    intro d h
    simp only [noDataBeforeEOF] at h
    simp only [parse_hex_file_go]
    by_cases hc : line.data.head? = some ':'
    · rw [if_pos hc] at h ⊢
      cases hf : recordFields line.data with
      | none => rw [hf] at h; exact absurd h (by simp)
      | some f =>
        obtain ⟨bc, addr, rt⟩ := f
        rw [hf] at h
        simp only at h ⊢
        by_cases h0 : rt = 0
        · rw [if_pos h0] at h; exact absurd h (by simp)
        · rw [if_neg h0] at h ⊢
          by_cases h1 : rt = 1
          · rw [if_pos h1]
          · rw [if_neg h1] at h ⊢
            exact ih d h
    · rw [if_neg hc] at h ⊢
      exact ih d h

/-! ### Claim theorems: decoder and orchestrator -/

/-- C1: the claim says `program_flash` executes the session-release path
(`end_programming`, deasserting reset) on every early-return path, in
particular when entering programming mode fails.  The code violates
this: on a valid one-byte image, with a target that does not echo `0x53`
to the programming-enable command, `program_flash` returns `False`
having driven the reset line low (`resets = [0]`) and never high again —
`end_programming` is not called on the `start_programming` failure path
(src/esp.py lines 350-351), so the hardware is left in programming
mode. -/
theorem C1_entry_failure_leaves_reset_asserted :
    program_flash (fun _ => (0, 0)) [":0100000000FF"] initSt
      = some (false, ⟨[(0xAC, 0x53, 0x00, 0x00)], [0]⟩) := by
  decide

/-- C10: `parse_hex_file` is not total over arbitrary text: a line that
begins with `:` but whose fields are not valid hexadecimal (here
`":ZZ"`) raises an exception (modelled `none`), whereas a line not
starting with `:` is skipped silently. -/
theorem C10_decode_not_total :
    parse_hex_file [":ZZ"] = none ∧ parse_hex_file ["ZZ"] = some [] := by
  decide

/-- C6: for every hex input containing no data record before the first
end-of-file record (every line up to it is either skipped or a record of
another type), the decoder returns the empty map and `program_flash`
returns failure with the hardware state untouched: no command is issued
and the reset line is never driven. -/
theorem C6_no_data_no_commands (env : Env) (lines : List String) (s : St)
    (h : noDataBeforeEOF lines = true) :
    parse_hex_file lines = some [] ∧ program_flash env lines s = some (false, s) := by
  have hp : parse_hex_file lines = some [] := noData_parse_go lines [] h
  exact ⟨hp, by simp [program_flash, hp]⟩

/-- Witness for C6 at a concrete EOF-only input and quiescent target. -/
theorem C6_witness :
    parse_hex_file [":00000001FF"] = some []
    ∧ program_flash (fun _ => (0, 0)) [":00000001FF"] initSt = some (false, initSt) :=
  C6_no_data_no_commands (fun _ => (0, 0)) [":00000001FF"] initSt (by decide)

/-- C5: one step of the decoder loop.  A line not starting with `:` is
skipped; a record-type-0 line whose payload parses inserts its payload
bytes (each two hex digits, base 16) at consecutive addresses starting
at the line's address field (which is below 2^16), so that the resulting
map holds byte `j` at `addr + j`; a record-type-1 line terminates
decoding immediately, whatever lines remain; any other record type
contributes no entries. -/
theorem C5_decode_semantics (line : String) (rest : List String) (d : List (Nat × Nat)) :
    (line.data.head? ≠ some ':' →
      parse_hex_file_go (line :: rest) d = parse_hex_file_go rest d)
    ∧ (∀ bc addr bs, line.data.head? = some ':' →
        recordFields line.data = some (bc, addr, 0) →
        payloadBytes line.data 0 bc = some bs →
        parse_hex_file_go (line :: rest) d = parse_hex_file_go rest (insertConsec d addr bs)
        ∧ bs.length = bc ∧ addr < 65536
        ∧ ∀ j (hj : j < bs.length),
            dictLookup (insertConsec d addr bs) (addr + j) = some (bs.get ⟨j, hj⟩))
    ∧ (∀ bc addr, line.data.head? = some ':' →
        recordFields line.data = some (bc, addr, 1) →
        parse_hex_file_go (line :: rest) d = some d)
    ∧ (∀ bc addr rt, line.data.head? = some ':' →
        recordFields line.data = some (bc, addr, rt) → rt ≠ 0 → rt ≠ 1 →
        parse_hex_file_go (line :: rest) d = parse_hex_file_go rest d) := by
  refine ⟨?_, ?_, ?_, ?_⟩
  · intro h
    simp [parse_hex_file_go, if_neg h]
  · intro bc addr bs hc hf hpb
    have hins : insertBytes line.data addr 0 bc d = some (insertConsec d addr bs) := by
      rw [insertBytes_eq_payload, hpb]
      simp
    refine ⟨?_, payloadBytes_length _ _ _ _ hpb, recordFields_addr_lt _ _ _ _ hf, ?_⟩
    · simp [parse_hex_file_go, if_pos hc, hf, hins]
    · intro j hj
      exact dictLookup_insertConsec_get bs d addr j hj
  · intro bc addr hc hf
    simp [parse_hex_file_go, if_pos hc, hf]
  · intro bc addr rt hc hf h0 h1
    simp [parse_hex_file_go, if_pos hc, hf, h0, h1]

/-- Witness for C5 on the data record `:02001000ABCD`: two payload bytes
`0xAB`, `0xCD` land at addresses 16 and 17. -/
theorem C5_witness :
    parse_hex_file_go [":02001000ABCD"] []
      = parse_hex_file_go [] (insertConsec [] 16 [171, 205])
    ∧ dictLookup (insertConsec [] 16 [171, 205]) 17 = some 205 := by
  have h := (C5_decode_semantics ":02001000ABCD" [] []).2.1 2 16 [171, 205]
    (by decide) (by decide) (by decide)
  refine ⟨h.1, ?_⟩
  have h4 := h.2.2.2 1 (by decide)
  simpa using h4

/-! ### Claim theorems: fuse safety guard -/

/-- The high-fuse write command `write_high_fuse fuse_value` issues is
recognized by `isHighFuseWriteCmd` (sanity link between the predicate
and `write_high_fuse`). -/
theorem write_high_fuse_cmds (env : Env) (fuse_value : Nat) (s : St) :
    (write_high_fuse env fuse_value s).cmds = s.cmds ++ [(0xAC, 0xA8, 0x00, fuse_value)]
    ∧ isHighFuseWriteCmd (0xAC, 0xA8, 0x00, fuse_value) = true := by
  exact ⟨rfl, by simp [isHighFuseWriteCmd]⟩

/-- C3: on every execution path of the fuse guard — any configured
target values, any responses from the target, any starting state — no
high-fuse write command (opcode `AC A8`) is ever issued: the commands
matching the high-fuse write opcode after the guard runs are exactly
those already in the trace before it ran. -/
theorem C3_no_high_fuse_write (tLow tHigh : Nat) (env : Env) (s : St) :
    (program_fuses tLow tHigh env s).2.cmds.filter isHighFuseWriteCmd
      = s.cmds.filter isHighFuseWriteCmd := by
  simp only [program_fuses, read_low_fuse, read_high_fuse, write_low_fuse,
    send_cmd_r4, send_cmd]
  split_ifs <;>
    simp [List.filter_append, isHighFuseWriteCmd]

/-- C7: the fuse guard is idempotent: when the low fuse read from the
target already equals the configured target `ATTINY13_LOW_FUSE_9_6MHZ`
and the high fuse reads the safe default `ATTINY13_HIGH_FUSE`, the guard
returns `true` having issued exactly the two fuse reads — zero fuse
write commands.  In particular a second invocation after a successful
run issues zero writes. -/
theorem C7_idempotent (env : Env) (s : St)
    (hlow : (env s.cmds.length).2 = ATTINY13_LOW_FUSE_9_6MHZ)
    (hhigh : (env (s.cmds.length + 1)).2 = ATTINY13_HIGH_FUSE) :
    program_fuses_for_9_6mhz env s
      = (true, { s with cmds := s.cmds ++ [readLowCmd, readHighCmd] })
    ∧ List.filter isFuseWriteCmd [readLowCmd, readHighCmd] = [] := by
  constructor
  · simp [program_fuses_for_9_6mhz, program_fuses, read_low_fuse, read_high_fuse,
      send_cmd_r4, send_cmd, readLowCmd, readHighCmd, ATTINY13_LOW_FUSE_9_6MHZ,
      ATTINY13_HIGH_FUSE, hlow, hhigh]
    decide
  · decide

/-- Witness for C7: a target whose fuses already match the 9.6 MHz
configuration. -/
theorem C7_witness :
    program_fuses_for_9_6mhz (fun n => if n = 0 then (0, 0x7A) else (0, 0xFF)) initSt
      = (true, { initSt with cmds := initSt.cmds ++ [readLowCmd, readHighCmd] })
    ∧ List.filter isFuseWriteCmd [readLowCmd, readHighCmd] = [] :=
  C7_idempotent (fun n => if n = 0 then (0, 0x7A) else (0, 0xFF)) initSt rfl rfl

/-- C2 counterexample: the claim states the guard returns `false`
whenever the high fuse read from the target has the reset-enable bit
(bit 7) cleared.  With the low fuse reading `0x7A` (the target value)
and the high fuse reading `0x7F` — bit 7 cleared, so reset-disable —
the guard returns `true`: the code only tests equality with `0xFE`
(src/esp.py line 176). -/
theorem C2_counterexample :
    ((0x7F : Nat) >>> 7) &&& 1 = 0
    ∧ (program_fuses_for_9_6mhz
        (fun n => if n = 0 then (0, 0x7A) else (0, 0x7F)) initSt).1 = true := by
  decide

/-- C2 amended: if the high fuse read from the target differs from
`0xFF` and either equals `0xFE` or has the SPIEN bit (bit 1) cleared,
and the low fuse read already equals the configured target (so the
low-fuse write branch is not taken first), then the guard returns
`false` having issued exactly the two fuse reads and zero fuse-write
commands. -/
theorem C2_amended (env : Env) (s : St) (h : Nat)
    (hlow : (env s.cmds.length).2 = ATTINY13_LOW_FUSE_9_6MHZ)
    (hhigh : (env (s.cmds.length + 1)).2 = h)
    (hne : h ≠ 0xFF) (hdanger : h = 0xFE ∨ h &&& 0x02 = 0) :
    program_fuses_for_9_6mhz env s
      = (false, { s with cmds := s.cmds ++ [readLowCmd, readHighCmd] })
    ∧ List.filter isFuseWriteCmd [readLowCmd, readHighCmd] = [] := by
  refine ⟨?_, by decide⟩
  rcases hdanger with hfe | hspien
  · subst hfe
    simp [program_fuses_for_9_6mhz, program_fuses, read_low_fuse, read_high_fuse,
      send_cmd_r4, send_cmd, readLowCmd, readHighCmd, ATTINY13_LOW_FUSE_9_6MHZ,
      ATTINY13_HIGH_FUSE, hlow, hhigh]
  · have hnfe : h ≠ 0xFE := by
      intro hh
      rw [hh] at hspien
      simp at hspien
    simp [program_fuses_for_9_6mhz, program_fuses, read_low_fuse, read_high_fuse,
      send_cmd_r4, send_cmd, readLowCmd, readHighCmd, ATTINY13_LOW_FUSE_9_6MHZ,
      ATTINY13_HIGH_FUSE, hlow, hhigh, hne, hnfe, hspien]

/-- Witness for C2 amended: low fuse already `0x7A`, high fuse reads the
dangerous `0xFE`. -/
theorem C2_amended_witness :
    program_fuses_for_9_6mhz (fun n => if n = 0 then (0, 0x7A) else (0, 0xFE)) initSt
      = (false, { initSt with cmds := initSt.cmds ++ [readLowCmd, readHighCmd] })
    ∧ List.filter isFuseWriteCmd [readLowCmd, readHighCmd] = [] :=
  C2_amended (fun n => if n = 0 then (0, 0x7A) else (0, 0xFE)) initSt 0xFE
    rfl rfl (by decide) (Or.inl rfl)

/-- C4 counterexample: the claim states that when the configured target
high-fuse value is not the safe `0xFF` the guard returns `false` having
issued no hardware command at all, the reads included.  Running the
guard configured with target high fuse `0xFE` against a quiescent
target: it does return `false`, but its command trace is the two fuse
reads, not empty — the reads (src/esp.py lines 140-141) precede the
check (line 146). -/
theorem C4_counterexample :
    (program_fuses ATTINY13_LOW_FUSE_9_6MHZ 0xFE (fun _ => (0, 0)) initSt).1 = false
    ∧ (program_fuses ATTINY13_LOW_FUSE_9_6MHZ 0xFE (fun _ => (0, 0)) initSt).2.cmds
        = [readLowCmd, readHighCmd] := by
  decide

/-- C4 amended: if the configured target high-fuse value is not the safe
`0xFF`, the guard returns `false` having issued no write command — but
it has already issued the two fuse-read commands, which precede the
check. -/
theorem C4_amended (tLow tHigh : Nat) (env : Env) (s : St) (hne : tHigh ≠ 0xFF) :
    program_fuses tLow tHigh env s
      = (false, { s with cmds := s.cmds ++ [readLowCmd, readHighCmd] })
    ∧ List.filter isFuseWriteCmd [readLowCmd, readHighCmd] = [] := by
  refine ⟨?_, by decide⟩
  simp [program_fuses, read_low_fuse, read_high_fuse, send_cmd_r4, send_cmd,
    readLowCmd, readHighCmd, hne]

/-- Witness for C4 amended at configured target high fuse `0xFE`. -/
theorem C4_amended_witness :
    program_fuses ATTINY13_LOW_FUSE_9_6MHZ 0xFE (fun _ => (0, 0)) initSt
      = (false, { initSt with cmds := initSt.cmds ++ [readLowCmd, readHighCmd] })
    ∧ List.filter isFuseWriteCmd [readLowCmd, readHighCmd] = [] :=
  C4_amended ATTINY13_LOW_FUSE_9_6MHZ 0xFE (fun _ => (0, 0)) initSt (by decide)

/-! ### Claim theorems: flash verification -/

theorem read_flash_byte_eq (env : Env) (addr : Nat) (s : St) :
    read_flash_byte env addr s
      = ((env s.cmds.length).2, { s with cmds := s.cmds ++ [flashReadCmd addr] }) :=
  rfl

theorem verifyGo_spec (env : Env) :
    ∀ (items : List (Nat × Nat)) (errors : Nat) (s : St),
      verifyGo env items errors s
        = ((errors + mismatches env s.cmds.length items == 0),
           { s with cmds := s.cmds ++
              flashReadCmds (items.take (scanCount env s.cmds.length errors items)) }) := by
  intro items
  induction items with
  | nil =>
    intro errors s
    simp [verifyGo, mismatches, scanCount, flashReadCmds]
  | cons p rest ih =>
    intro errors s
    simp only [verifyGo, read_flash_byte_eq]
    by_cases hm : (env s.cmds.length).2 ≠ p.2
    · rw [if_pos hm]
      by_cases hb : errors + 1 ≥ 20
      · rw [if_pos hb]
        simp only [mismatches, scanCount, if_pos hm, if_pos hb]
        have h1 : (errors + 1 == 0) = false := by simp
        have h2 : (errors + (1 + mismatches env (s.cmds.length + 1) rest) == 0) = false := by
          simp
        rw [h1, h2]
        simp [List.take, flashReadCmds]
      · rw [if_neg hb]
        rw [ih (errors + 1) { s with cmds := s.cmds ++ [flashReadCmd p.1] }]
        simp only [mismatches, scanCount, if_pos hm, if_neg hb]
        have hlen : ({ s with cmds := s.cmds ++ [flashReadCmd p.1] } : St).cmds.length
            = s.cmds.length + 1 := by simp
        rw [hlen]
        have harith : errors + 1 + mismatches env (s.cmds.length + 1) rest
            = errors + (1 + mismatches env (s.cmds.length + 1) rest) := by omega
        rw [harith]
        simp [List.take_cons, flashReadCmds, List.append_assoc]
    · rw [if_neg hm]
      rw [ih errors { s with cmds := s.cmds ++ [flashReadCmd p.1] }]
      simp only [mismatches, scanCount, if_neg hm]
      have hlen : ({ s with cmds := s.cmds ++ [flashReadCmd p.1] } : St).cmds.length
          = s.cmds.length + 1 := by simp
      rw [hlen]
      simp [List.take_cons, flashReadCmds, List.append_assoc]

theorem scanCount_all (env : Env) :
    ∀ (items : List (Nat × Nat)) (n errors : Nat),
      errors + mismatches env n items < 20 → scanCount env n errors items = items.length := by
  intro items
  induction items with
  | nil => intro n errors _; rfl
  | cons p rest ih =>
    intro n errors h
    simp only [mismatches] at h
    simp only [scanCount]
    by_cases hm : (env n).2 ≠ p.2
    · rw [if_pos hm] at h ⊢
      rw [if_neg (by omega)]
      rw [ih (n + 1) (errors + 1) (by omega)]
      simp only [List.length_cons]
      omega
    · rw [if_neg hm] at h ⊢
      rw [ih (n + 1) errors (by omega)]
      simp only [List.length_cons]
      omega

theorem scanCount_break (env : Env) :
    ∀ (items : List (Nat × Nat)) (n errors : Nat), errors < 20 →
      scanCount env n errors items < items.length →
      errors + mismatches env n (items.take (scanCount env n errors items)) = 20 := by
  intro items
  induction items with
  | nil => intro n errors _ h; simp [scanCount] at h
  | cons p rest ih =>
    intro n errors herr h
    simp only [scanCount] at h ⊢
    by_cases hm : (env n).2 ≠ p.2
    · rw [if_pos hm] at h ⊢
      by_cases hb : errors + 1 ≥ 20
      · rw [if_pos hb] at h ⊢
        simp [List.take, mismatches, if_pos hm]
        omega
      · rw [if_neg hb] at h ⊢
        simp only [List.length_cons] at h
        have hr := ih (n + 1) (errors + 1) (by omega) (by omega)
        simp [List.take_cons, mismatches, if_pos hm]
        omega
    · rw [if_neg hm] at h ⊢
      simp only [List.length_cons] at h
      have hr := ih (n + 1) errors herr (by omega)
      simp [List.take_cons, mismatches, if_neg hm]
      omega

/-- C8: `verify_flash` passes if and only if zero mismatches occur over
the image's entries; its command trace is one flash-read per scanned
entry, in image order; it scans every entry when fewer than 20
mismatches exist in total, and if it stops early the scanned prefix
contains exactly 20 mismatches. -/
theorem C8_verify (env : Env) (parsed_data : List (Nat × Nat)) (s : St) :
    ((verify_flash env parsed_data s).1 = true
      ↔ mismatches env s.cmds.length parsed_data = 0)
    ∧ (verify_flash env parsed_data s).2.cmds
        = s.cmds ++ flashReadCmds
            (parsed_data.take (scanCount env s.cmds.length 0 parsed_data))
    ∧ (mismatches env s.cmds.length parsed_data < 20 →
        scanCount env s.cmds.length 0 parsed_data = parsed_data.length)
    ∧ (scanCount env s.cmds.length 0 parsed_data < parsed_data.length →
        mismatches env s.cmds.length
          (parsed_data.take (scanCount env s.cmds.length 0 parsed_data)) = 20) := by
  have hs := verifyGo_spec env parsed_data 0 s
  refine ⟨?_, ?_, ?_, ?_⟩
  · rw [verify_flash, hs]
    simp
  · rw [verify_flash, hs]
  · intro h
    exact scanCount_all env parsed_data _ 0 (by omega)
  · intro h
    have hr := scanCount_break env parsed_data _ 0 (by omega) h
    omega

/-- Witness for C8: a clean pass over a two-entry image, and an all-wrong
21-entry image where scanning stops after exactly 20 mismatches. -/
theorem C8_witness :
    (verify_flash (fun _ => (0, 5)) [(0, 5), (1, 5)] initSt).1 = true
    ∧ scanCount (fun _ => (0, 5)) 0 0 [(0, 5), (1, 5)] = 2
    ∧ scanCount (fun _ => (0, 0)) 0 0 ((List.range 21).map (fun i => (i, 1)))
        < ((List.range 21).map (fun i => (i, 1))).length
    ∧ mismatches (fun _ => (0, 0)) 0
        (((List.range 21).map (fun i => (i, 1))).take
          (scanCount (fun _ => (0, 0)) 0 0 ((List.range 21).map (fun i => (i, 1))))) = 20 := by
  refine ⟨?_, ?_, ?_, ?_⟩
  · exact (C8_verify (fun _ => (0, 5)) [(0, 5), (1, 5)] initSt).1.mpr (by decide)
  · exact (C8_verify (fun _ => (0, 5)) [(0, 5), (1, 5)] initSt).2.2.1 (by decide)
  · decide
  · exact (C8_verify (fun _ => (0, 0)) ((List.range 21).map (fun i => (i, 1))) initSt).2.2.2
      (by decide)

/-! ### Claim theorems: page selection -/

theorem loadPageWord_foldl_cmds (env : Env) (db : List Nat) :
    ∀ (l : List Nat) (st : St),
      l.foldl (loadPageWord env db) st
        = { st with cmds := st.cmds ++
            ((l.map (fun wi => loadWordCmds wi ((db.get? (wi * 2)).getD 0xFF)
              ((db.get? (wi * 2 + 1)).getD 0xFF))).flatten) } := by
  intro l
  induction l with
  | nil => intro st; simp
  | cons a l ih =>
    intro st
    rw [List.foldl_cons, ih]
    simp [loadPageWord, send_cmd_r4, send_cmd, loadWordCmds, List.append_assoc]

theorem program_flash_page_cmds (env : Env) (page_address : Nat) (db : List Nat) (s : St) :
    program_flash_page env page_address db s
      = { s with cmds := s.cmds ++ pageProgCmds page_address db } := by
  simp only [program_flash_page, loadPageWord_foldl_cmds, send_cmd_r4, send_cmd,
    pageProgCmds, pageCommitCmd]
  simp [List.append_assoc]

theorem flashPages_foldl_cmds (env : Env) (parsed_data : List (Nat × Nat)) :
    ∀ (l : List Nat) (s : St),
      (l.foldl (fun st page_start =>
        if pageHasData parsed_data page_start then
          program_flash_page env page_start (buildPage parsed_data page_start) st
        else st) s).cmds
      = s.cmds ++ ((l.filter (fun ps => pageHasData parsed_data ps)).map
          (fun ps => pageProgCmds ps (buildPage parsed_data ps))).flatten := by
  intro l
  induction l with
  | nil => intro s; simp
  | cons a l ih =>
    intro s
    rw [List.foldl_cons]
    by_cases ha : pageHasData parsed_data a
    · rw [if_pos ha, ih, program_flash_page_cmds]
      simp [List.filter_cons, ha, List.append_assoc]
    · rw [if_neg ha, ih]
      simp [List.filter_cons, ha]

theorem pageCommitCmd_inj :
    ∀ p ∈ pageStarts, ∀ q ∈ pageStarts, pageCommitCmd p = pageCommitCmd q → p = q := by
  decide

/-- C9: the page-programming loop issues exactly the page-load and
page-commit command blocks of those pages that have at least one byte in
the decoded image, in page order; for a page start in range, its commit
command appears in the loop's output trace if and only if the page has
data — a page whose 32-byte range is absent from the image gets no
commands at all. -/
theorem C9_page_selection (env : Env) (parsed_data : List (Nat × Nat)) (s : St) :
    (flashPages env parsed_data s).cmds
      = s.cmds ++ ((pageStarts.filter (fun ps => pageHasData parsed_data ps)).map
          (fun ps => pageProgCmds ps (buildPage parsed_data ps))).flatten
    ∧ ∀ ps, ps ∈ pageStarts →
        (pageCommitCmd ps ∈ ((pageStarts.filter (fun ps2 => pageHasData parsed_data ps2)).map
            (fun ps2 => pageProgCmds ps2 (buildPage parsed_data ps2))).flatten
          ↔ pageHasData parsed_data ps = true) := by
  constructor
  · exact flashPages_foldl_cmds env parsed_data pageStarts s
  · intro ps hps
    constructor
    · intro hmem
      rw [List.mem_flatten] at hmem
      obtain ⟨L, hL, hcL⟩ := hmem
      rw [List.mem_map] at hL
      obtain ⟨ps2, hps2, rfl⟩ := hL
      rw [List.mem_filter] at hps2
      obtain ⟨hps2mem, hps2data⟩ := hps2
      simp only [pageProgCmds, List.mem_append] at hcL
      rcases hcL with hload | hcommit
      · rw [List.mem_flatten] at hload
        obtain ⟨L2, hL2, hcL2⟩ := hload
        rw [List.mem_map] at hL2
        obtain ⟨wi, _, rfl⟩ := hL2
        simp only [loadWordCmds, List.mem_cons, List.not_mem_nil, or_false] at hcL2
        rcases hcL2 with h1 | h2
        · exact absurd (congrArg Prod.fst h1) (by simp [pageCommitCmd])
        · exact absurd (congrArg Prod.fst h2) (by simp [pageCommitCmd])
      · rw [List.mem_singleton] at hcommit
        rw [pageCommitCmd_inj ps hps ps2 hps2mem hcommit]
        exact hps2data
    · intro hdata
      rw [List.mem_flatten]
      refine ⟨pageProgCmds ps (buildPage parsed_data ps), ?_, ?_⟩
      · rw [List.mem_map]
        exact ⟨ps, List.mem_filter.mpr ⟨hps, hdata⟩, rfl⟩
      · simp [pageProgCmds]

/-- Witness for C9 with a one-byte image at address 0: the page at 0 is
committed, the page at 32 is not. -/
theorem C9_witness :
    pageCommitCmd 0 ∈ ((pageStarts.filter (fun ps2 => pageHasData [(0, 1)] ps2)).map
        (fun ps2 => pageProgCmds ps2 (buildPage [(0, 1)] ps2))).flatten
    ∧ ¬ (pageCommitCmd 32 ∈ ((pageStarts.filter (fun ps2 => pageHasData [(0, 1)] ps2)).map
        (fun ps2 => pageProgCmds ps2 (buildPage [(0, 1)] ps2))).flatten) := by
  have h := (C9_page_selection (fun _ => (0, 0)) [(0, 1)] initSt).2
  constructor
  · exact (h 0 (by decide)).mpr (by decide)
  · intro hc
    exact absurd ((h 32 (by decide)).mp hc) (by decide)

end Esp
